import Mathlib

/-!
Verification of the contact-manager core (`src/contact_manager.py`) against its
natural-language specification.  The Python classes are shallowly embedded:
Python strings become Lean `String` (modelled over their ASCII fragment:
`str.isdigit`, `\w` and `str.strip` additionally accept some non-ASCII
characters in Python, which no claim exercises), raised exceptions become
`Except PyErr` results, and `datetime.now()` becomes an explicit `today`
parameter.  Calendar arithmetic follows CPython's proleptic Gregorian
calendar; ordinals are shifted by a constant (we count from year 0 instead of
year 1), which is invisible to date subtraction, the only operation the code
performs on ordinals.
-/

/-- Python exceptions that the embedded code can raise.  Messages are dropped:
no claim depends on the message text. -/
inductive PyErr
  | valueError
  | typeError
  | attributeError
deriving DecidableEq

/-- Truthiness-tagged argument values, as Python passes them around: `None`, a
plain string, or an already-constructed `Email` / `Birthday` field object
(which `_load_from_db` passes to `Record.__init__`). -/
inductive PyArg
  | noneV
  | strV (s : String)
  | emailObj (s : String)
  | bdayObj (s : String)
deriving DecidableEq

/-- Python truthiness of a `PyArg`: `None` and the empty string are falsy;
any object instance is truthy. -/
def PyArg.truthy : PyArg → Bool
  | .noneV => false
  | .strV s => !(s == "")
  | .emailObj _ => true
  | .bdayObj _ => true

/-- `Except.isOk` written out, so that theorems can speak about
"construction succeeds" executably. -/
def isOkE {α : Type} : Except PyErr α → Bool
  | .ok _ => true
  | .error _ => false

/-- The value carried by a successful result, if any. -/
def okVal {α : Type} : Except PyErr α → Option α
  | .ok a => some a
  | .error _ => none

instance {ε α : Type} [DecidableEq ε] [DecidableEq α] :
    DecidableEq (Except ε α) := fun x y =>
  match x, y with
  | .ok a, .ok b =>
    if h : a = b then isTrue (by rw [h])
    else isFalse (fun hc => h (Except.ok.inj hc))
  | .error e, .error f =>
    if h : e = f then isTrue (by rw [h])
    else isFalse (fun hc => h (Except.error.inj hc))
  | .ok _, .error _ => isFalse (fun hc => Except.noConfusion hc)
  | .error _, .ok _ => isFalse (fun hc => Except.noConfusion hc)

/-! ### String helpers

Structural-recursion models of the Python string operations the source uses,
so that every definition evaluates inside the kernel. -/

/-- `str.split` on a single-character separator (used for `"-"` in
`strptime` and conceptually in `_load_from_db`): left-to-right scan,
accumulating the current piece. -/
def splitCharAux (sep : Char) : List Char → List Char → List (List Char)
  | [], acc => [acc]
  | c :: rest, acc =>
    if c == sep then acc :: splitCharAux sep rest []
    else splitCharAux sep rest (acc ++ [c])

/-- Split a string on one character, Python `s.split(sep)` style. -/
def splitChar (sep : Char) (s : String) : List (List Char) :=
  splitCharAux sep s.data []

/-- `str.split(", ")`, the two-character separator used for the `phones`
column: left-to-right, non-overlapping. -/
def splitCommaSpace : List Char → List Char → List String
  | [], acc => [⟨acc⟩]
  | ',' :: ' ' :: rest, acc => (⟨acc⟩ : String) :: splitCommaSpace rest []
  | c :: rest, acc => splitCommaSpace rest (acc ++ [c])

/-- `", ".join(...)` from `_save_to_db`. -/
def joinCommaSpace : List String → String
  | [] => ""
  | [s] => s
  | s :: rest => s ++ ", " ++ joinCommaSpace rest

/-- Digit-string to number (the numeric value `strptime` extracts from a
matched all-digit group). -/
def digitsToNat (l : List Char) : Nat :=
  l.foldl (fun acc c => acc * 10 + (c.toNat - 48)) 0

/-! ### Calendar model (CPython `datetime.date`) -/

/-- A calendar date, as the `(year, month, day)` triple `datetime.date`
holds. -/
structure Date where
  y : Nat
  m : Nat
  d : Nat
deriving DecidableEq

/-- CPython's leap-year test: `y % 4 == 0 and (y % 100 != 0 or y % 400 == 0)`. -/
def isLeap (y : Nat) : Bool :=
  y % 4 == 0 && (y % 100 != 0 || y % 400 == 0)

/-- Number of days of month `m` (1–12) in a year with the given leapness,
CPython's `_DAYS_IN_MONTH`; 0 for out-of-range months. -/
def monthLen (leap : Bool) : Nat → Nat
  | 1 => 31
  | 2 => if leap then 29 else 28
  | 3 => 31
  | 4 => 30
  | 5 => 31
  | 6 => 30
  | 7 => 31
  | 8 => 31
  | 9 => 30
  | 10 => 31
  | 11 => 30
  | 12 => 31
  | _ => 0

/-- Days in the months strictly before month `m`, CPython's
`_days_before_month`. -/
def daysBeforeMonth (leap : Bool) : Nat → Nat
  | 0 => 0
  | m + 1 => daysBeforeMonth leap m + monthLen leap m

/-- 365 or 366, per the year's leapness. -/
def daysInYear (y : Nat) : Nat :=
  if isLeap y then 366 else 365

/-- Days in the years strictly before year `y`.  CPython counts from year 1
with a closed formula; we count from year 0 recursively.  The two differ by
the constant 366, which cancels in every date subtraction. -/
def daysBeforeYear : Nat → Nat
  | 0 => 0
  | y + 1 => daysBeforeYear y + daysInYear y

/-- The day ordinal of a date (CPython `_ymd2ord`, up to a constant shift);
date subtraction `(d2 - d1).days` is the difference of ordinals. -/
def toOrdinal (dt : Date) : Nat :=
  daysBeforeYear dt.y + daysBeforeMonth (isLeap dt.y) dt.m + dt.d

/-- The `datetime.date` validity invariant. -/
def validDate (dt : Date) : Bool :=
  decide (1 ≤ dt.y) && decide (1 ≤ dt.m) && decide (dt.m ≤ 12) &&
    decide (1 ≤ dt.d) && decide (dt.d ≤ monthLen (isLeap dt.y) dt.m)

/-- `datetime.strptime(s, "%Y-%m-%d").date()`: `%Y` matches exactly four
digits, `%m` and `%d` one or two digits, the whole string must be consumed,
and the resulting triple must be a valid `datetime.date` (year at least 1). -/
def parseDate (s : String) : Option Date :=
  match splitChar '-' s with
  | [ys, ms, ds] =>
    if ys.length = 4 ∧ ys.all Char.isDigit = true ∧
        1 ≤ ms.length ∧ ms.length ≤ 2 ∧ ms.all Char.isDigit = true ∧
        1 ≤ ds.length ∧ ds.length ≤ 2 ∧ ds.all Char.isDigit = true then
      if 1 ≤ digitsToNat ys ∧ 1 ≤ digitsToNat ms ∧ digitsToNat ms ≤ 12 ∧
          1 ≤ digitsToNat ds ∧
          digitsToNat ds ≤ monthLen (isLeap (digitsToNat ys)) (digitsToNat ms) then
        some ⟨digitsToNat ys, digitsToNat ms, digitsToNat ds⟩
      else none
    else none
  | _ => none

/-! ### Field validators -/

/-- `Name.__init__`: valid iff `len(value.strip()) > 0`, i.e. some character
is not whitespace. -/
def Name.init (value : String) : Except PyErr String :=
  if value.data.any (fun c => !c.isWhitespace) then .ok value
  else .error .valueError

/-- A `Phone` field object; `str(p)` is `p.value`. -/
structure Phone where
  value : String
deriving DecidableEq

/-- Python `str.isdigit` (ASCII fragment): nonempty and every character a
decimal digit. -/
def pyIsDigit (s : String) : Bool :=
  !(s == "") && s.data.all Char.isDigit

/-- `Phone.__init__`: raises unless `len(value) == 10 and value.isdigit()`. -/
def Phone.init (value : String) : Except PyErr Phone :=
  if value.length != 10 || !(pyIsDigit value) then .error .valueError
  else .ok ⟨value⟩

/-- Character class `\w` of Python `re` (ASCII fragment): letters, digits,
underscore. -/
def wordChar (c : Char) : Bool :=
  c.isAlphanum || c == '_'

/-- Character class `[\w.]`. -/
def wordDot (c : Char) : Bool :=
  wordChar c || c == '.'

/-- Does the list start with the given character?  If so, run the
continuation on the tail.  (Helper for the regex matchers.) -/
def atSym (c : Char) (l : List Char) (f : List Char → Bool) : Bool :=
  match l with
  | x :: t => x == c && f t
  | [] => false

/-- Tail of the pattern `\w{2,3}` under `re.match` (prefix) semantics: with
the rest of the string unconstrained, it succeeds iff at least two word
characters follow. -/
def tldOk : List Char → Bool
  | a :: b :: _ => wordChar a && wordChar b
  | _ => false

/-- The `\w{2,}\.\w{2,3}` suffix of the email pattern, under `re.match`
semantics: some split point gives at least two word characters, a literal
dot, then `tldOk`. -/
def domScan (t : List Char) : Bool :=
  (List.range t.length).any fun j =>
    (t.take (j + 2)).all wordChar && atSym '.' (t.drop (j + 2)) tldOk

/-- `re.match(r"[a-zA-Z][\w.]+@\w{2,}\.\w{2,3}", s)` viewed as a Bool: a
leading letter, a nonempty run of `[\w.]`, a literal `@`, then `domScan`;
the remainder of the string is unconstrained (`re.match` anchors only at the
start). -/
def emailCore : List Char → Bool
  | [] => false
  | c :: rest =>
    c.isAlpha &&
      (List.range rest.length).any fun i =>
        (rest.take (i + 1)).all wordDot && atSym '@' (rest.drop (i + 1)) domScan

/-- `Email.is_valid`: the regex prefix-matches, or the value is the empty
string. -/
def email_is_valid (s : String) : Bool :=
  s == "" || emailCore s.data

/-- `Email.__init__`: validates a string argument with `Email.is_valid`; on a
non-string argument (as `_load_from_db` ends up passing) `re.match` raises
`TypeError`, which the `except ValueError` inside `is_valid` does not catch. -/
def Email.init : PyArg → Except PyErr String
  | .strV s => if email_is_valid s then .ok s else .error .valueError
  | _ => .error .typeError

/-- `Birthday.__init__`: validates a string argument with
`strptime(value, "%Y-%m-%d")`; on a non-string argument `strptime` raises
`TypeError`. -/
def Birthday.init : PyArg → Except PyErr String
  | .strV s => if (parseDate s).isSome then .ok s else .error .valueError
  | _ => .error .typeError

example : isOkE (Phone.init "1234567890") = true := by decide
example : isOkE (Phone.init "123456789") = false := by decide
example : isOkE (Phone.init "123456789a") = false := by decide
example : email_is_valid "john.doe@example.com" = true := by decide
example : email_is_valid "" = true := by decide
example : email_is_valid "a@bc.de" = false := by decide
example : email_is_valid "ab@cd.efgh" = true := by decide
example : parseDate "1990-01-01" = some ⟨1990, 1, 1⟩ := by decide
example : parseDate "2000-02-29" = some ⟨2000, 2, 29⟩ := by decide
example : parseDate "2001-02-29" = none := by decide
example : parseDate "1990-13-01" = none := by decide

/-! ### Contact Record -/

/-- A `Record`: one validated name, an ordered phone list, optional validated
email and birthday strings. -/
structure Record where
  name : String
  phones : List Phone
  email : Option String
  birthday : Option String
deriving DecidableEq

/-- `Record.__init__(name, phones, email, birthday)`: validates the name,
each phone, and — when the corresponding argument is truthy — builds the
email and birthday fields by calling their constructors on whatever value
was passed (`Email(email)`, `Birthday(birthday)`), which raises `TypeError`
when that value is itself a field object rather than a string. -/
def Record.init (name : String) (phones : List String)
    (email birthday : PyArg) : Except PyErr Record := do
  let n ← Name.init name
  let ps ← phones.mapM Phone.init
  let e ← if email.truthy then (Email.init email).map some else pure none
  let b ← if birthday.truthy then (Birthday.init birthday).map some else pure none
  pure ⟨n, ps, e, b⟩

/-- The loop body of `Record.edit_phone`: scan for the first phone whose
rendering equals `old_phone`.  On a hit the code calls `p.set_value(...)`,
but neither `Phone` nor `Field` defines any `set_value` attribute, so Python
raises `AttributeError` there; after a miss on every phone the code raises
`ValueError` ("does not exist"). -/
def editPhoneGo (oldPhone : String) : List Phone → Except PyErr Unit
  | [] => .error .valueError
  | p :: ps =>
    if p.value == oldPhone then .error .attributeError
    else editPhoneGo oldPhone ps

/-- `Record.edit_phone(old_phone, new_phone)`: returns the raised exception
together with the record state afterwards (no mutation happens on either
path: `set_value` fails before assigning, and the not-found path only
raises). -/
def Record.edit_phone (r : Record) (oldPhone newPhone : String) :
    Except PyErr Unit × Record :=
  (editPhoneGo oldPhone r.phones, r)

/-- `Record.find_phone`: first phone whose rendering equals the query, else
`None`. -/
def Record.find_phone (r : Record) (phoneNumber : String) : Option Phone :=
  r.phones.find? (fun p => p.value == phoneNumber)

/-- Python tuple comparison `(today.month, today.day) > (b.month, b.day)`. -/
def mdAfter (today b : Date) : Prop :=
  b.m < today.m ∨ (today.m = b.m ∧ b.d < today.d)

instance (today b : Date) : Decidable (mdAfter today b) := by
  unfold mdAfter; infer_instance

/-- The year in which `days_to_birthday` rebuilds the birthday: this year,
or next year if today's month/day is strictly past the birthday's. -/
def nextYearFor (today b : Date) : Nat :=
  if mdAfter today b then today.y + 1 else today.y

/-- The value `(birthday_date.replace(year=ny) - today).days` computes when
the `replace` succeeds. -/
def birthdayDelta (today b : Date) : Int :=
  (toOrdinal ⟨nextYearFor today b, b.m, b.d⟩ : Int) - (toOrdinal today : Int)

/-- `Record.days_to_birthday` with `datetime.now().date()` made an explicit
`today` parameter: `None` when no birthday is set; otherwise re-parse the
stored string, pick this year or the next by month/day comparison, and
rebuild the date in that year — `date.replace(year=...)` raises `ValueError`
when the day does not exist in the target year's month (February 29 in a
non-leap year) or when the year exceeds `MAXYEAR = 9999`. -/
def Record.days_to_birthday (today : Date) (r : Record) :
    Except PyErr (Option Int) :=
  match r.birthday with
  | none => .ok none
  | some s =>
    match parseDate s with
    | none => .error .valueError
    | some b =>
      let ny := nextYearFor today b
      if b.d ≤ monthLen (isLeap ny) b.m ∧ ny ≤ 9999 then
        .ok (some (birthdayDelta today b))
      else .error .valueError

/-! ### Address Book -/

/-- The in-memory container: `UserDict`'s `self.data`, an insertion-ordered
mapping from name to record, modelled as an association list with Python
`dict` update semantics. -/
structure AddressBook where
  data : List (String × Record)
deriving DecidableEq

/-- Python `dict.__setitem__`: replace the value in place when the key is
present (keeping its position), otherwise append at the end. -/
def dictInsert (l : List (String × Record)) (k : String) (v : Record) :
    List (String × Record) :=
  if l.any (fun kv => kv.1 == k) then
    l.map (fun kv => if kv.1 == k then (k, v) else kv)
  else l ++ [(k, v)]

/-- Python `dict.get`. -/
def dictLookup (l : List (String × Record)) (k : String) : Option Record :=
  (l.find? (fun kv => kv.1 == k)).map Prod.snd

/-- `AddressBook.add_record(record)`: a single
`self.__setitem__(record.name.value, record)` — nothing else happens; in
particular `_save_to_db` is not called. -/
def AddressBook.add_record (book : AddressBook) (r : Record) : AddressBook :=
  ⟨dictInsert book.data r.name r⟩

/-- `AddressBook.find(name)`. -/
def AddressBook.find (book : AddressBook) (name : String) : Option Record :=
  dictLookup book.data name

/-- The first `delete` definition in the class body (source lines 180–184):
drop the key if present, otherwise print a "does not exist" message.  This
definition is shadowed by the later one and is never the method Python
calls; it is kept here as the documented intent.  The returned `Option
String` is the printed message. -/
def AddressBook.delete_first_def (book : AddressBook) (name : String) :
    AddressBook × Option String :=
  if book.data.any (fun kv => kv.1 == name) then
    (⟨book.data.filter (fun kv => !(kv.1 == name))⟩, none)
  else (book, some "does not exist")

/-! ### Persistence adapter -/

/-- One row of the `contacts` table: `name` (primary key) plus three
nullable text columns. -/
structure Row where
  name : String
  phones : Option String
  email : Option String
  birthday : Option String
deriving DecidableEq

/-- `INSERT OR REPLACE` into a table whose primary key is `name`: SQLite
implements REPLACE as delete-then-insert, so a replaced row receives a fresh
rowid and `SELECT *` (rowid order) returns it last. -/
def dbUpsert (db : List Row) (row : Row) : List Row :=
  db.filter (fun r => !(r.name == row.name)) ++ [row]

/-- `AddressBook._save_to_db`: for every record, in container order, encode
the phones as a `", "`-joined string (NULL when the list is empty) and
upsert by name.  Rows for records no longer in memory are left behind. -/
def save_to_db (book : AddressBook) (db : List Row) : List Row :=
  book.data.foldl
    (fun acc kv =>
      let r := kv.2
      let phonesCol : Option String :=
        match r.phones with
        | [] => none
        | ps => some (joinCommaSpace (ps.map Phone.value))
      dbUpsert acc ⟨r.name, phonesCol, r.email, r.birthday⟩)
    db

/-- Reconstruct one contact from a row, as the body of `_load_from_db`'s
loop does: split the phones column, rebuild `Email` / `Birthday` field
objects from the stored strings, then call
`Record(name, email=<Email object>, birthday=<Birthday object>)` — whose own
constructor calls `Email(...)` / `Birthday(...)` again on those objects —
and finally replace `contact.phones` with freshly validated phones. -/
def loadRow (row : Row) : Except PyErr Record := do
  let phones : List String :=
    match row.phones with
    | some p => splitCommaSpace p.data []
    | none => []
  let emailArg : PyArg ←
    match row.email with
    | some e =>
      if e == "" then pure PyArg.noneV
      else (Email.init (PyArg.strV e)).map PyArg.emailObj
    | none => pure PyArg.noneV
  let bdayArg : PyArg ←
    match row.birthday with
    | some b =>
      if b == "" then pure PyArg.noneV
      else (Birthday.init (PyArg.strV b)).map PyArg.bdayObj
    | none => pure PyArg.noneV
  let contact ← Record.init row.name [] emailArg bdayArg
  let ps ← phones.mapM Phone.init
  pure { contact with phones := ps }

/-- `AddressBook._load_from_db`: process rows in order, inserting each
reconstructed contact into `self.data`; an exception aborts the loop, with
the contacts inserted so far kept (the pair returns the raised exception and
the book state afterwards). -/
def load_from_db : List Row → AddressBook → Except PyErr Unit × AddressBook
  | [], book => (.ok (), book)
  | row :: rest, book =>
    match loadRow row with
    | .error e => (.error e, book)
    | .ok contact => load_from_db rest ⟨dictInsert book.data row.name contact⟩

/-- The *effective* `AddressBook.delete` (the second definition in the class
body, source lines 257–259, which shadows the first): it begins with
`super().delete(name)`, but neither `UserDict` nor any of its bases defines
a method named `delete`, so attribute lookup raises `AttributeError` before
anything happens; `_save_to_db` is never reached and neither the book nor
the database changes. -/
def AddressBook.delete (book : AddressBook) (db : List Row) (name : String) :
    Except PyErr Unit × AddressBook × List Row :=
  (.error .attributeError, book, db)

/-! ### Iteration -/

/-- The pages yielded by the `chunk_size` branch of `__iter__`: successive
slices `list(records)[current : current + chunk_size]`.  The Python `while`
loop advances `current` by `chunk_size` per step; for `chunk_size ≥ 1` it
performs at most `len(records)` iterations, used here as fuel.  (For
`chunk_size = 0` the Python loop never terminates; the model is only used
with positive chunk sizes.) -/
def pagesAux (k : Nat) : Nat → List Record → List (List Record)
  | 0, _ => []
  | _, [] => []
  | fuel + 1, l => l.take k :: pagesAux k fuel (l.drop k)

/-- `self.data.values()` in order. -/
def AddressBook.records (book : AddressBook) : List Record :=
  book.data.map Prod.snd

/-- The sequence of values yielded by `AddressBook.__iter__(chunk_size)`.
Because the function body contains `yield`, Python compiles the whole
function as a generator function; in the `chunk_size is None` branch the
statement `return iter(records)` therefore does not deliver an iterator to
the caller — inside a generator, `return` simply ends the generator — so
that branch yields nothing at all.  The `chunk_size` branch yields the
successive page slices. -/
def addressBookIter (book : AddressBook) (chunkSize : Option Nat) :
    List (List Record) :=
  match chunkSize with
  | none => []
  | some k => pagesAux k book.records.length book.records

example : joinCommaSpace ["1234567890", "0987654321"] = "1234567890, 0987654321" := by decide
example : splitCommaSpace "1234567890, 0987654321".data [] = ["1234567890", "0987654321"] := by decide

/-! ### The claim C6 pattern, read as the spec writes it

The executable pattern above (`emailCore`) is the source's `re.match`, which
anchors only at the start.  The claim instead states the shape of the whole
string, `<letter><word-chars+dots>@<alnum>{2,}.<alnum>{2,3}`, so we also
formalise that reading, to compare the two. -/

/-- The claim's `<alnum>` class. -/
def alnumChar (c : Char) : Bool :=
  c.isAlphanum

/-- Modelled from the spec: the trailing `<alnum>{2,3}` of the claim's
pattern, ending the string (the claim constrains the whole of `s`). -/
def tldFull : List Char → Bool
  | [a, b] => alnumChar a && alnumChar b
  | [a, b, c] => alnumChar a && alnumChar b && alnumChar c
  | _ => false

/-- Modelled from the spec: the `<alnum>{2,}.<alnum>{2,3}` suffix of the
claim's pattern, consuming the rest of the string. -/
def domScanFull (t : List Char) : Bool :=
  (List.range t.length).any fun j =>
    (t.take (j + 2)).all alnumChar && atSym '.' (t.drop (j + 2)) tldFull

/-- Modelled from the spec: the claim's pattern
`<letter><word-chars+dots>@<alnum>{2,}.<alnum>{2,3}` matched against the
entire string. -/
def emailSpecFull : List Char → Bool
  | [] => false
  | c :: rest =>
    c.isAlpha &&
      (List.range rest.length).any fun i =>
        (rest.take (i + 1)).all wordDot && atSym '@' (rest.drop (i + 1)) domScanFull

/-! ### Concrete fixtures -/

/-- The spec's running example record, fully populated. -/
def johnRec : Record :=
  ⟨"John Doe", [⟨"1234567890"⟩], some "john.doe@example.com", some "1990-01-01"⟩

/-- An address book holding only `johnRec`. -/
def book1 : AddressBook :=
  ⟨[("John Doe", johnRec)]⟩

/-- A record whose (valid) birthday is February 29 of a leap year. -/
def feb29Rec : Record :=
  ⟨"Leap", [], none, some "2000-02-29"⟩

/-- Three plain records, for iteration order. -/
def recA : Record := ⟨"Alice", [⟨"1111111111"⟩], none, none⟩

/-- Second fixture record. -/
def recB : Record := ⟨"Bob", [⟨"2222222222"⟩], none, none⟩

/-- Third fixture record. -/
def recC : Record := ⟨"Carol", [⟨"3333333333"⟩], none, none⟩

/-- A three-record address book, in insertion order. -/
def book3 : AddressBook :=
  ⟨[("Alice", recA), ("Bob", recB), ("Carol", recC)]⟩

example : Record.init "John Doe" ["1234567890"]
    (PyArg.strV "john.doe@example.com") (PyArg.strV "1990-01-01") =
    Except.ok johnRec := by decide

/-! ### Claim theorems (concrete parts) -/

/-- Claim C1 (code bug): a record built from valid inputs (name, one phone,
email, birthday) is saved, but loading it back raises `TypeError`:
`_load_from_db` wraps the stored email in an `Email` object and then
`Record.__init__` calls `Email(...)` on that object again, so `re.match`
receives a non-string.  The round-trip the claim (and the spec) states never
completes for any record carrying an email or birthday. -/
theorem save_then_load_raises :
    Record.init "John Doe" ["1234567890"]
        (PyArg.strV "john.doe@example.com") (PyArg.strV "1990-01-01") =
      Except.ok johnRec ∧
    (load_from_db (save_to_db book1 []) ⟨[]⟩).1 = Except.error PyErr.typeError := by
  decide

/-- Claim C2 (code bug): on the spec's scenario record,
`editPhone("1234567890", "0987654321")` finds the phone and then calls
`p.set_value(...)`, a method that exists nowhere on `Phone` or `Field`, so
the call raises `AttributeError` instead of succeeding; the phone list is
left unchanged and `findPhone("1234567890")` still returns the old field. -/
theorem edit_phone_existing_raises :
    Record.edit_phone johnRec "1234567890" "0987654321" =
      (Except.error PyErr.attributeError, johnRec) ∧
    Record.find_phone johnRec "1234567890" = some ⟨"1234567890"⟩ := by
  decide

/-- Claim C3 (code bug): `delete("Nonexistent")` on a book without that key
does not print "does not exist" — the second, effective `delete` definition
starts with `super().delete(name)`, and `UserDict` has no `delete` method,
so every call raises `AttributeError` (book and durable storage are left
unchanged, and `_save_to_db` is never reached). -/
theorem delete_always_raises :
    AddressBook.find book1 "Nonexistent" = none ∧
    AddressBook.delete book1 (save_to_db book1 []) "Nonexistent" =
      (Except.error PyErr.attributeError, book1, save_to_db book1 []) := by
  decide

/-- Claim C5 (code bug): iterating a three-record book without a chunk size
yields nothing at all — the `return iter(records)` statement executes inside
a generator function (the body contains `yield`), which ends the generator
with zero yields — while iterating with chunk size 2 does yield the ordered
pages `[A, B]`, `[C]`. -/
theorem iter_unchunked_yields_nothing :
    book3.records = [recA, recB, recC] ∧
    addressBookIter book3 none = [] ∧
    addressBookIter book3 (some 2) = [[recA, recB], [recC]] := by
  decide

/-- Claim C10 (confirmed): "2000-02-29" is a validly constructed `Birthday`,
yet with today = 2024-03-01 the computed next-occurrence year is 2025, not a
leap year, and `birthday_date.replace(year=2025)` raises `ValueError`:
`days_to_birthday` is not total over valid birthdays. -/
theorem days_to_birthday_feb29_raises :
    isOkE (Birthday.init (PyArg.strV "2000-02-29")) = true ∧
    Record.days_to_birthday ⟨2024, 3, 1⟩ feb29Rec =
      Except.error PyErr.valueError := by
  decide

/-- Claim C8, counterexample: for the record with birthday "2000-02-29" and
today = 2023-01-05 (this year's occurrence not yet passed, so the target
year is 2023, not a leap year), `days_to_birthday` raises `ValueError`
instead of returning the day count the claim promises for every record with
a birthday set. -/
theorem days_to_birthday_feb29_cex :
    Record.days_to_birthday ⟨2023, 1, 5⟩ feb29Rec =
      Except.error PyErr.valueError := by
  decide

/-- Claim C6, counterexample: `Email("ab@cd.efgh")` succeeds — `re.match`
only anchors at the start, so the four-letter TLD simply leaves the final
`h` unmatched — although the string is not empty and does not match the
claim's pattern `<letter><word-chars+dots>@<alnum>{2,}.<alnum>{2,3}` as a
whole (its TLD part has four letters). -/
theorem email_claim_cex :
    isOkE (Email.init (PyArg.strV "ab@cd.efgh")) = true ∧
    ¬("ab@cd.efgh" = "") ∧
    emailSpecFull "ab@cd.efgh".data = false := by
  decide

/-- Claim C4, counterexample: `add_record` consists of a single
`__setitem__`; no write to durable storage happens, so after adding a record
to an empty book the database is still empty — whereas the persistence sync
the claim asserts would have produced the record's row (`save_to_db` of the
updated book differs from the untouched storage). -/
theorem add_record_no_sync_cex :
    AddressBook.add_record ⟨[]⟩ johnRec = ⟨[("John Doe", johnRec)]⟩ ∧
    save_to_db (AddressBook.add_record ⟨[]⟩ johnRec) [] ≠ ([] : List Row) := by
  decide

/-! ### C7: the Phone validator -/

/-- `Char.isDigit` spelled as a range of decimal digits. -/
theorem isDigit_iff (c : Char) : c.isDigit = true ↔ '0' ≤ c ∧ c ≤ '9' := by
  simp [Char.isDigit, Char.le_def]

/-- The Bool guard of `Phone.__init__`, characterised. -/
theorem phone_guard_iff (s : String) :
    (s.length != 10 || !(pyIsDigit s)) = false ↔
      (s.data.length = 10 ∧ ∀ c ∈ s.data, '0' ≤ c ∧ c ≤ '9') := by
  rw [Bool.or_eq_false_iff]
  constructor
  · rintro ⟨h1, h2⟩
    rw [bne_eq_false_iff_eq] at h1
    rw [Bool.not_eq_false'] at h2
    unfold pyIsDigit at h2
    rw [Bool.and_eq_true, List.all_eq_true] at h2
    exact ⟨h1, fun c hc => (isDigit_iff c).mp (h2.2 c hc)⟩
  · rintro ⟨h1, h2⟩
    refine ⟨by rw [bne_eq_false_iff_eq]; exact h1, ?_⟩
    rw [Bool.not_eq_false']
    unfold pyIsDigit
    rw [Bool.and_eq_true, List.all_eq_true]
    constructor
    · rw [Bool.not_eq_true', beq_eq_false_iff_ne]
      intro he
      rw [he] at h1
      simp at h1
    · exact fun c hc => (isDigit_iff c).mpr (h2 c hc)

/-- Claim C7 (confirmed): `Phone` construction succeeds exactly on strings
of precisely ten decimal-digit characters, and on success the stored value —
what `render()`/`str()` returns — is exactly the input string. -/
theorem phone_init_correct (s : String) :
    (isOkE (Phone.init s) = true ↔
      s.data.length = 10 ∧ ∀ c ∈ s.data, '0' ≤ c ∧ c ≤ '9') ∧
    (isOkE (Phone.init s) = true →
      (okVal (Phone.init s)).map Phone.value = some s) := by
  have hinit : Phone.init s =
      if (s.length != 10 || !(pyIsDigit s)) = true then
        Except.error PyErr.valueError
      else Except.ok ⟨s⟩ := rfl
  by_cases hc : (s.length != 10 || !(pyIsDigit s)) = true
  · rw [hinit, if_pos hc]
    constructor
    · simp only [isOkE]
      constructor
      · intro h
        exact absurd h (by decide)
      · intro hr
        rw [(phone_guard_iff s).mpr hr] at hc
        exact absurd hc (by decide)
    · intro h
      simp [isOkE] at h
  · have hf : (s.length != 10 || !(pyIsDigit s)) = false := by
      cases h2 : (s.length != 10 || !(pyIsDigit s)) with
      | false => rfl
      | true => exact absurd h2 hc
    rw [hinit, if_neg hc]
    constructor
    · simp only [isOkE, true_iff]
      exact (phone_guard_iff s).mp hf
    · intro _
      simp [okVal]

/-- Witness for C7 at the spec's example phone. -/
theorem phone_init_correct_witness :
    isOkE (Phone.init "1234567890") = true ∧
    (okVal (Phone.init "1234567890")).map Phone.value = some "1234567890" := by
  have h := phone_init_correct "1234567890"
  have hok : isOkE (Phone.init "1234567890") = true := h.1.mpr (by decide)
  exact ⟨hok, h.2 hok⟩

/-! ### C9: edit_phone on a missing phone -/

/-- The `edit_phone` loop, when no phone matches, falls through and raises
the not-found `ValueError`. -/
theorem editPhoneGo_not_found (oldP : String) (l : List Phone)
    (h : ∀ p ∈ l, p.value ≠ oldP) :
    editPhoneGo oldP l = Except.error PyErr.valueError := by
  induction l with
  | nil => rfl
  | cons p ps ih =>
    unfold editPhoneGo
    rw [if_neg]
    · exact ih (fun q hq => h q (List.mem_cons_of_mem _ hq))
    · intro hb
      rw [beq_iff_eq] at hb
      exact h p (List.mem_cons_self _ _) hb

/-- Claim C9 (confirmed): when no phone of the record renders as `oldRaw`,
`edit_phone` raises the reportable not-found `ValueError` (it is not
swallowed) and the record — in particular its phone sequence — is left
unchanged. -/
theorem edit_phone_missing_reports (r : Record) (oldP newP : String)
    (h : ∀ p ∈ r.phones, p.value ≠ oldP) :
    Record.edit_phone r oldP newP = (Except.error PyErr.valueError, r) := by
  unfold Record.edit_phone
  rw [editPhoneGo_not_found oldP r.phones h]

/-- Witness for C9: the spec's scenario, `editPhone("9999999999", ...)` on
the record whose only phone is "1234567890". -/
theorem edit_phone_missing_reports_witness :
    Record.edit_phone johnRec "9999999999" "0000000000" =
      (Except.error PyErr.valueError, johnRec) :=
  edit_phone_missing_reports johnRec "9999999999" "0000000000" (by decide)

/-! ### C4: add_record -/

/-- In-place dict update: searching for the updated key after the update
finds the new pair, provided the key was present. -/
theorem find?_update_self (l : List (String × Record)) (k : String) (v : Record)
    (h : l.any (fun kv => kv.1 == k) = true) :
    (l.map (fun kv => if kv.1 == k then (k, v) else kv)).find?
        (fun kv => kv.1 == k) = some (k, v) := by
  induction l with
  | nil => simp at h
  | cons kv rest ih =>
    simp only [List.map_cons]
    by_cases hk : (kv.1 == k) = true
    · rw [if_pos hk]
      exact List.find?_cons_of_pos _ (beq_self_eq_true k)
    · have hrest : rest.any (fun kv => kv.1 == k) = true := by
        rw [List.any_cons] at h
        rcases Bool.or_eq_true_iff.mp h with h1 | h1
        · exact absurd h1 hk
        · exact h1
      rw [if_neg hk, @List.find?_cons_of_neg _ (fun kv => kv.1 == k) kv _ hk]
      exact ih hrest

/-- In-place dict update: lookups of any other key are unaffected. -/
theorem find?_update_other (l : List (String × Record)) (k k2 : String)
    (v : Record) (hne : k2 ≠ k) :
    (l.map (fun kv => if kv.1 == k then (k, v) else kv)).find?
        (fun kv => kv.1 == k2) =
      l.find? (fun kv => kv.1 == k2) := by
  induction l with
  | nil => rfl
  | cons kv rest ih =>
    simp only [List.map_cons]
    by_cases hk : (kv.1 == k) = true
    · have hkv : kv.1 = k := beq_iff_eq.mp hk
      have h1 : ¬((k : String) == k2) = true := by
        rw [beq_iff_eq]
        exact fun h => hne h.symm
      have h2 : ¬(kv.1 == k2) = true := by
        rw [hkv]
        exact h1
      rw [if_pos hk, @List.find?_cons_of_neg _ (fun kv => kv.1 == k2) (k, v) _ h1,
        @List.find?_cons_of_neg _ (fun kv => kv.1 == k2) kv rest h2, ih]
    · by_cases hk2 : (kv.1 == k2) = true
      · rw [if_neg hk, @List.find?_cons_of_pos _ (fun kv => kv.1 == k2) kv _ hk2,
          @List.find?_cons_of_pos _ (fun kv => kv.1 == k2) kv rest hk2]
      · rw [if_neg hk, @List.find?_cons_of_neg _ (fun kv => kv.1 == k2) kv _ hk2,
          @List.find?_cons_of_neg _ (fun kv => kv.1 == k2) kv rest hk2, ih]

/-- Claim C4, amended part (proved): `add_record` stores the record under
its current name — a later lookup of that name returns exactly this record,
silently replacing whatever was there, with no duplicate error possible (the
operation is total) — and every other key's binding is untouched.  (The
persistence-sync half of the original claim is refuted by
the accompanying counterexample: no storage write happens.) -/
theorem add_record_correct (book : AddressBook) (r : Record) :
    dictLookup (book.add_record r).data r.name = some r ∧
    ∀ k, k ≠ r.name →
      dictLookup (book.add_record r).data k = dictLookup book.data k := by
  unfold AddressBook.add_record dictInsert
  by_cases h : book.data.any (fun kv => kv.1 == r.name) = true
  · rw [if_pos h]
    constructor
    · unfold dictLookup
      rw [find?_update_self book.data r.name r h]
      rfl
    · intro k hk
      unfold dictLookup
      rw [find?_update_other book.data r.name k r hk]
  · rw [if_neg h]
    constructor
    · unfold dictLookup
      rw [List.find?_append]
      have hnone : book.data.find? (fun kv => kv.1 == r.name) = none := by
        rw [List.find?_eq_none]
        intro kv hkv hbeq
        exact h (List.any_eq_true.mpr ⟨kv, hkv, hbeq⟩)
      rw [hnone]
      simp
    · intro k hk
      unfold dictLookup
      rw [List.find?_append]
      have htail : List.find? (fun kv => kv.1 == k) [(r.name, r)] = none := by
        have hb : ¬((r.name == k) = true) :=
          fun hb => hk (beq_iff_eq.mp hb).symm
        rw [@List.find?_cons_of_neg _ (fun kv => kv.1 == k) (r.name, r) [] hb]
        rfl
      rw [htail]
      simp
/-- Witness for C4: adding a record overwrites the existing binding under
"John Doe" and leaves the binding for "Alice" untouched. -/
theorem add_record_correct_witness :
    dictLookup ((AddressBook.mk [("John Doe", johnRec), ("Alice", recA)]).add_record
        (Record.mk "John Doe" [] none none)).data "John Doe" =
      some (Record.mk "John Doe" [] none none) ∧
    dictLookup ((AddressBook.mk [("John Doe", johnRec), ("Alice", recA)]).add_record
        (Record.mk "John Doe" [] none none)).data "Alice" =
      dictLookup [("John Doe", johnRec), ("Alice", recA)] "Alice" := by
  have h := add_record_correct (AddressBook.mk [("John Doe", johnRec), ("Alice", recA)])
    (Record.mk "John Doe" [] none none)
  exact ⟨h.1, h.2 "Alice" (by decide)⟩

/-! ### C8: days_to_birthday -/

/-- Unfolding `daysBeforeMonth` one step. -/
theorem daysBeforeMonth_succ (leap : Bool) (m : Nat) :
    daysBeforeMonth leap (m + 1) = daysBeforeMonth leap m + monthLen leap m := rfl

/-- `daysBeforeMonth` is monotone in the month. -/
theorem daysBeforeMonth_mono (leap : Bool) {a b : Nat} (h : a ≤ b) :
    daysBeforeMonth leap a ≤ daysBeforeMonth leap b := by
  induction b with
  | zero =>
    have ha : a = 0 := Nat.le_zero.mp h
    rw [ha]
  | succ n ih =>
    rcases Nat.lt_or_ge a (n + 1) with h1 | h1
    · have h2 := ih (Nat.lt_succ_iff.mp h1)
      have h3 := daysBeforeMonth_succ leap n
      omega
    · have ha : a = n + 1 := Nat.le_antisymm h h1
      rw [ha]

/-- A valid day-of-year offset is at most the length of the year. -/
theorem doy_le_daysInYear (y : Nat) {m d : Nat} (hm : m ≤ 12)
    (hd : d ≤ monthLen (isLeap y) m) :
    daysBeforeMonth (isLeap y) m + d ≤ daysInYear y := by
  have h2 : daysBeforeMonth (isLeap y) (m + 1) ≤ daysBeforeMonth (isLeap y) 13 :=
    daysBeforeMonth_mono _ (by omega)
  have h3 := daysBeforeMonth_succ (isLeap y) m
  have h4 : daysBeforeMonth (isLeap y) 13 = daysInYear y := by
    unfold daysInYear
    cases isLeap y <;> rfl
  omega

/-- Within one year, an earlier month gives a strictly smaller day-of-year
offset (for valid days). -/
theorem doy_lt_of_month_lt (leap : Bool) {m1 d1 m2 d2 : Nat}
    (hlt : m1 < m2) (hd1 : d1 ≤ monthLen leap m1) (hd2 : 1 ≤ d2) :
    daysBeforeMonth leap m1 + d1 < daysBeforeMonth leap m2 + d2 := by
  have h2 : daysBeforeMonth leap (m1 + 1) ≤ daysBeforeMonth leap m2 :=
    daysBeforeMonth_mono leap hlt
  have h3 := daysBeforeMonth_succ leap m1
  omega

/-- `birthdayDelta` unfolded to ordinal arithmetic. -/
theorem birthdayDelta_eq (today b : Date) :
    birthdayDelta today b =
      ((daysBeforeYear (nextYearFor today b) +
          daysBeforeMonth (isLeap (nextYearFor today b)) b.m + b.d : Nat) : Int) -
        ((daysBeforeYear today.y +
          daysBeforeMonth (isLeap today.y) today.m + today.d : Nat) : Int) := rfl

/-- A successfully parsed date satisfies the `datetime.date` bounds. -/
theorem parseDate_sound {s : String} {b : Date} (h : parseDate s = some b) :
    1 ≤ b.y ∧ 1 ≤ b.m ∧ b.m ≤ 12 ∧ 1 ≤ b.d ∧
      b.d ≤ monthLen (isLeap b.y) b.m := by
  unfold parseDate at h
  split at h
  · split at h
    · split at h
      · rename_i hcond
        injection h with h2
        subst h2
        exact hcond
      · exact absurd h (by simp)
    · exact absurd h (by simp)
  · exact absurd h (by simp)

/-- The day count is never negative: the rebuilt birthday date is on or
after today. -/
theorem birthdayDelta_nonneg (today b : Date)
    (htv : validDate today = true) (hbd : 1 ≤ b.d) :
    0 ≤ birthdayDelta today b := by
  unfold validDate at htv
  simp only [Bool.and_eq_true, decide_eq_true_eq] at htv
  obtain ⟨⟨⟨⟨hy1, hm1⟩, hm12⟩, hd1⟩, hdlen⟩ := htv
  rw [birthdayDelta_eq]
  unfold nextYearFor
  by_cases hgt : mdAfter today b
  · rw [if_pos hgt]
    have hstep : daysBeforeYear (today.y + 1) =
        daysBeforeYear today.y + daysInYear today.y := rfl
    have hbound := doy_le_daysInYear today.y hm12 hdlen
    omega
  · rw [if_neg hgt]
    unfold mdAfter at hgt
    push_neg at hgt
    obtain ⟨hle, him⟩ := hgt
    by_cases heq : today.m = b.m
    · have hdd := him heq
      rw [heq]
      omega
    · have hlt : today.m < b.m := Nat.lt_of_le_of_ne hle heq
      have h5 := doy_lt_of_month_lt (isLeap today.y) hlt hdlen hbd
      omega

/-- When today's month/day equal the birthday's, the count is zero. -/
theorem birthdayDelta_zero (today b : Date)
    (hm : today.m = b.m) (hd : today.d = b.d) :
    birthdayDelta today b = 0 := by
  have hng : ¬ mdAfter today b := by
    unfold mdAfter
    omega
  rw [birthdayDelta_eq]
  unfold nextYearFor
  rw [if_neg hng, hm, hd]
  omega

/-- Claim C8 (amended, proved): with no birthday set, `days_to_birthday`
returns the unknown sentinel (`None`); with a birthday set, whenever the
birthday's month/day can be rebuilt in the computed target year (which fails
only for February 29 when that year is not a leap year, and at the `MAXYEAR`
bound — the case split off by the accompanying counterexample), the function
returns the non-negative number of days from today to the next occurrence of
the birthday's month/day (this year, or next year when today's month/day is
strictly past it), and that count is 0 exactly when the month/day equal
today's. -/
theorem days_to_birthday_correct (today : Date) (r : Record)
    (htv : validDate today = true) :
    (r.birthday = none → Record.days_to_birthday today r = Except.ok none) ∧
    (∀ s b, r.birthday = some s → parseDate s = some b →
      b.d ≤ monthLen (isLeap (nextYearFor today b)) b.m →
      nextYearFor today b ≤ 9999 →
      Record.days_to_birthday today r =
          Except.ok (some (birthdayDelta today b)) ∧
        0 ≤ birthdayDelta today b ∧
        (today.m = b.m ∧ today.d = b.d → birthdayDelta today b = 0)) := by
  constructor
  · intro hb
    unfold Record.days_to_birthday
    rw [hb]
  · intro s b hb hp hcon hny
    have hs := parseDate_sound hp
    refine ⟨?_, ?_, ?_⟩
    · unfold Record.days_to_birthday
      rw [hb]
      simp only [hp]
      rw [if_pos ⟨hcon, hny⟩]
    · exact birthdayDelta_nonneg today b htv hs.2.2.2.1
    · rintro ⟨hm, hd⟩
      exact birthdayDelta_zero today b hm hd

/-- Witness for C8: today = year 5, March 1; birthday "0004-03-01" (same
month/day) gives a zero-day count. -/
theorem days_to_birthday_correct_witness :
    Record.days_to_birthday ⟨5, 3, 1⟩
        (Record.mk "Spring" [] none (some "0004-03-01")) =
      Except.ok (some (birthdayDelta ⟨5, 3, 1⟩ ⟨4, 3, 1⟩)) ∧
    birthdayDelta ⟨5, 3, 1⟩ ⟨4, 3, 1⟩ = 0 := by
  have h := (days_to_birthday_correct ⟨5, 3, 1⟩
      (Record.mk "Spring" [] none (some "0004-03-01")) (by decide)).2
      "0004-03-01" ⟨4, 3, 1⟩ rfl (by decide) (by decide) (by decide)
  exact ⟨h.1, h.2.2 ⟨rfl, rfl⟩⟩

/-! ### C6: the Email validator, characterised -/

/-- The language of the source's email pattern under `re.match` semantics,
stated declaratively: some prefix of the string decomposes as
letter · run-of-`[\w.]` · `@` · word-chars (at least 2) · `.` · two word
characters, with the remainder `r` unconstrained. -/
def EmailShape (l : List Char) : Prop :=
  ∃ c loc dom x y r,
    l = c :: (loc ++ '@' :: (dom ++ '.' :: x :: y :: r)) ∧
    c.isAlpha = true ∧ loc ≠ [] ∧ (∀ a ∈ loc, wordDot a = true) ∧
    2 ≤ dom.length ∧ (∀ a ∈ dom, wordChar a = true) ∧
    wordChar x = true ∧ wordChar y = true

/-- `atSym` succeeds exactly on lists starting with the symbol whose tail
satisfies the continuation. -/
theorem atSym_iff (c : Char) (l : List Char) (f : List Char → Bool) :
    atSym c l f = true ↔ ∃ t, l = c :: t ∧ f t = true := by
  cases l with
  | nil => simp [atSym]
  | cons x t =>
    unfold atSym
    rw [Bool.and_eq_true, beq_iff_eq]
    constructor
    · rintro ⟨rfl, hf⟩
      exact ⟨t, rfl, hf⟩
    · rintro ⟨t2, ht, hf⟩
      injection ht with h1 h2
      subst h1
      subst h2
      exact ⟨rfl, hf⟩

/-- `tldOk` succeeds exactly when the list starts with two word characters. -/
theorem tldOk_iff (t : List Char) :
    tldOk t = true ↔
      ∃ x y r, t = x :: y :: r ∧ wordChar x = true ∧ wordChar y = true := by
  cases t with
  | nil => simp [tldOk]
  | cons a t2 =>
    cases t2 with
    | nil => simp [tldOk]
    | cons b r =>
      unfold tldOk
      rw [Bool.and_eq_true]
      constructor
      · rintro ⟨ha, hb⟩
        exact ⟨a, b, r, rfl, ha, hb⟩
      · rintro ⟨x, y, r2, heq, hx, hy⟩
        injection heq with h1 h2
        injection h2 with h3 h4
        subst h1
        subst h3
        exact ⟨hx, hy⟩

/-- `domScan` succeeds exactly on lists of shape
word-chars (at least 2) · `.` · two word characters · anything. -/
theorem domScan_iff (t : List Char) :
    domScan t = true ↔
      ∃ dom x y r, t = dom ++ '.' :: x :: y :: r ∧ 2 ≤ dom.length ∧
        (∀ a ∈ dom, wordChar a = true) ∧
        wordChar x = true ∧ wordChar y = true := by
  unfold domScan
  rw [List.any_eq_true]
  constructor
  · rintro ⟨j, hj, hcond⟩
    rw [List.mem_range] at hj
    rw [Bool.and_eq_true] at hcond
    obtain ⟨hall, hat⟩ := hcond
    rw [atSym_iff] at hat
    obtain ⟨t2, hdrop, htld⟩ := hat
    rw [tldOk_iff] at htld
    obtain ⟨x, y, r, ht2, hx, hy⟩ := htld
    refine ⟨t.take (j + 2), x, y, r, ?_, ?_, ?_, hx, hy⟩
    · conv_lhs => rw [← List.take_append_drop (j + 2) t]
      rw [hdrop, ht2]
    · have hlen : 1 ≤ (t.drop (j + 2)).length := by
        rw [hdrop]
        simp
      rw [List.length_drop] at hlen
      rw [List.length_take]
      omega
    · intro a ha
      rw [List.all_eq_true] at hall
      exact hall a ha
  · rintro ⟨dom, x, y, r, ht, hlen, hdom, hx, hy⟩
    subst ht
    have hj2 : dom.length - 2 + 2 = dom.length := by omega
    refine ⟨dom.length - 2, ?_, ?_⟩
    · rw [List.mem_range]
      simp [List.length_append]
      omega
    · rw [Bool.and_eq_true, hj2]
      constructor
      · rw [List.take_left' rfl, List.all_eq_true]
        exact hdom
      · rw [List.drop_left' rfl, atSym_iff]
        refine ⟨x :: y :: r, rfl, ?_⟩
        rw [tldOk_iff]
        exact ⟨x, y, r, rfl, hx, hy⟩

/-- The executable `re.match` model agrees with the declarative language. -/
theorem emailCore_iff (l : List Char) : emailCore l = true ↔ EmailShape l := by
  cases l with
  | nil =>
    constructor
    · intro h
      exact absurd h (by decide)
    · rintro ⟨c, loc, dom, x, y, r, heq, _⟩
      exact absurd heq (by simp)
  | cons c rest =>
    unfold emailCore
    rw [Bool.and_eq_true, List.any_eq_true]
    constructor
    · rintro ⟨halpha, i, hi, hcond⟩
      rw [List.mem_range] at hi
      rw [Bool.and_eq_true] at hcond
      obtain ⟨hall, hat⟩ := hcond
      rw [atSym_iff] at hat
      obtain ⟨t, hdrop, hdom⟩ := hat
      rw [domScan_iff] at hdom
      obtain ⟨dom, x, y, r, ht, hlen, hdomall, hx, hy⟩ := hdom
      have hres : rest = rest.take (i + 1) ++ ('@' :: t) := by
        conv_lhs => rw [← List.take_append_drop (i + 1) rest]
        rw [hdrop]
      refine ⟨c, rest.take (i + 1), dom, x, y, r, ?_, halpha, ?_, ?_,
        hlen, hdomall, hx, hy⟩
      · conv_lhs => rw [hres, ht]
      · have hlt : (rest.take (i + 1)).length = i + 1 := by
          rw [List.length_take]
          omega
        intro hnil
        rw [hnil] at hlt
        simp at hlt
      · intro a ha
        rw [List.all_eq_true] at hall
        exact hall a ha
    · rintro ⟨c2, loc, dom, x, y, r, heq, halpha, hloc, hlocall,
        hlen, hdomall, hx, hy⟩
      injection heq with h1 h2
      subst h1
      subst h2
      have hloc1 : 1 ≤ loc.length := by
        cases loc with
        | nil => exact absurd rfl hloc
        | cons _ _ => simp
      have h1l : loc.length - 1 + 1 = loc.length := by omega
      refine ⟨halpha, loc.length - 1, ?_, ?_⟩
      · rw [List.mem_range]
        simp [List.length_append]
        omega
      · rw [Bool.and_eq_true, h1l]
        constructor
        · rw [List.take_left' rfl, List.all_eq_true]
          exact hlocall
        · rw [List.drop_left' rfl, atSym_iff]
          refine ⟨dom ++ '.' :: x :: y :: r, rfl, ?_⟩
          rw [domScan_iff]
          exact ⟨dom, x, y, r, rfl, hlen, hdomall, hx, hy⟩

/-- Claim C6 (amended, proved): `Email` construction from a string `s`
succeeds iff `s` is empty or a *prefix* of `s` matches the pattern
`<letter><word-chars+dots>@<word-chars>{2,}.<word-chars>{2}` — the code's
`re.match` anchors at the start only, so nothing constrains the rest of the
string (making the upper bound of the final `{2,3}` unobservable), and the
domain parts use `\w` (letters, digits, underscore), not bare
alphanumerics. -/
theorem email_init_iff (s : String) :
    isOkE (Email.init (PyArg.strV s)) = true ↔ s = "" ∨ EmailShape s.data := by
  have hinit : Email.init (PyArg.strV s) =
      if email_is_valid s = true then Except.ok s
      else Except.error PyErr.valueError := rfl
  have h1 : isOkE (Email.init (PyArg.strV s)) = email_is_valid s := by
    rw [hinit]
    by_cases h : email_is_valid s = true
    · rw [if_pos h, h]
      rfl
    · have hf : email_is_valid s = false := by
        cases h2 : email_is_valid s with
        | false => rfl
        | true => exact absurd h2 h
      rw [if_neg h, hf]
      rfl
  rw [h1]
  unfold email_is_valid
  rw [Bool.or_eq_true, beq_iff_eq, emailCore_iff]

/-- Witness for C6 at the spec's example email address. -/
theorem email_init_iff_witness :
    isOkE (Email.init (PyArg.strV "john.doe@example.com")) = true := by
  apply (email_init_iff "john.doe@example.com").mpr
  right
  exact ⟨'j', "ohn.doe".data, "example".data, 'c', 'o', ['m'], by decide,
    by decide, by decide, by decide, by decide, by decide, by decide, by decide⟩
